import Mathlib

/-!
# SDL audio renderer: adaptive queue limit and bounded back-pressure

A shallow embedding of `app/streaming/audio/renderers/sdlaud.cpp`.

* `getAdaptiveAudioQueueLimitMs` is the static helper of the same name.
* `submitAudio` is `SdlAudioRenderer::submitAudio`; the calls it makes into SDL
  are recorded, in order, as a list of `SdlCall`, each with the value the
  environment answered.
* `destructor` is the body of `SdlAudioRenderer::~SdlAudioRenderer`.

Machine integers are `Nat`/`Int` with the conversions of the C++ source written
out (`toInt32`, `toUInt32`).
-/

namespace SdlAud

/-! ## Machine integer conversions -/

/-- Conversion of an integer value to `int` (32 bit, two's complement wrap). -/
def toInt32 (x : Int) : Int := (x + 2 ^ 31) % 2 ^ 32 - 2 ^ 31

/-- Conversion of an integer value to `uint32_t` / `Uint32` (wrap modulo 2^32). -/
def toUInt32 (x : Int) : Nat := (x % 2 ^ 32).toNat

/-! ## The jitter-adaptive queue limit -/

/-- Embedding of `getAdaptiveAudioQueueLimitMs` (sdlaud.cpp, lines 19-45).

`apple` is the compile-time condition `defined(__APPLE__)`.  `rttInfo` is the
answer of `LiGetEstimatedRttInfo(nullptr, &rttVarianceMs)`: `none` when the call
returns false, `some v` when it returns true and stores `v` in the `uint32_t`
variable `rttVarianceMs` (hence the reduction modulo 2^32). -/
def getAdaptiveAudioQueueLimitMs (apple : Bool) (rttInfo : Option Nat) : Int :=
  let baseMs : Int := 30
  let baseMs : Int := if apple then 20 else baseMs
  let baseMs : Int :=
    match rttInfo with
    | some v =>
      let rttVarianceMs : Nat := v % 2 ^ 32
      let jitterMs : Int := toInt32 ((rttVarianceMs / 2 : Nat) : Int)
      let jitterMs : Int := if jitterMs > 20 then 20 else jitterMs
      baseMs + jitterMs
    | none => baseMs
  let baseMs : Int := if baseMs < 15 then 15 else baseMs
  let baseMs : Int := if baseMs > 60 then 60 else baseMs
  baseMs

/-- The platform base latency named by the specification: 30 ms, or 20 ms on
the platform whose audio subsystem tolerates small buffers. -/
def platformBaseMs (apple : Bool) : Int := if apple then 20 else 30

/-- The jitter contribution as the specification words it:
`min(varianceMs / 2, 20)` when a sample is available, nothing otherwise. -/
def jitterContributionSpec (rttInfo : Option Nat) : Int :=
  match rttInfo with
  | some v => min ((v / 2 : Nat) : Int) 20
  | none => 0

/-- The latency target as the specification words it: the base plus the jitter
contribution, clamped to the closed range [15, 60]. -/
def latencyTargetSpec (apple : Bool) (rttInfo : Option Nat) : Int :=
  max 15 (min 60 (platformBaseMs apple + jitterContributionSpec rttInfo))

/-! ## Renderer state, environment and recorded calls -/

/-- The values of `SDL_AudioStatus`. -/
inductive SDL_AudioStatus where
  | SDL_AUDIO_STOPPED
  | SDL_AUDIO_PLAYING
  | SDL_AUDIO_PAUSED
  deriving DecidableEq, Repr

/-- The fields of `SdlAudioRenderer`.  A null `m_AudioBuffer` is `none`. -/
structure SdlAudioRenderer where
  m_AudioDevice : Nat
  m_AudioBuffer : Option Nat
  m_FrameSize : Nat
  deriving DecidableEq, Repr

/-- One call made by the renderer, with its arguments and, for the two device
queries, the value that came back. -/
inductive SdlCall where
  | SDL_GetAudioDeviceStatus (dev : Nat) (result : SDL_AudioStatus)
  | SDL_GetQueuedAudioSize (dev : Nat) (result : Nat)
  | SDL_Delay (ms : Nat)
  | SDL_QueueAudio (dev : Nat) (data : Option Nat) (len : Nat)
  | SDL_LogError
  | SDL_PauseAudioDevice (dev : Nat) (pauseOn : Nat)
  | SDL_CloseAudioDevice (dev : Nat)
  | SDL_free (mem : Nat)
  | SDL_QuitSubSystem
  deriving DecidableEq, Repr

/-- What the collaborators answer during one call of `submitAudio`.

* `apple`: `defined(__APPLE__)`.
* `rttInfo`: the answer of `LiGetEstimatedRttInfo`.
* `pendingAudioDuration`: the `uint32_t` answer of `LiGetPendingAudioDuration`.
* `deviceStatus i`: the answer of the `SDL_GetAudioDeviceStatus` call of loop
  iteration `i`.
* `queuedAudioSize i`: the `Uint32` answer of the `SDL_GetQueuedAudioSize` call
  of loop iteration `i`.
* `queueAudioResult`: the return value of `SDL_QueueAudio`. -/
structure Env where
  apple : Bool
  rttInfo : Option Nat
  pendingAudioDuration : Nat
  deviceStatus : Nat → SDL_AudioStatus
  queuedAudioSize : Nat → Nat
  queueAudioResult : Int

/-- How the back-pressure loop of `submitAudio` is left. -/
inductive LoopExit where
  | stopped
  | proceed
  | divisionByZero
  deriving DecidableEq, Repr

/-- How a call of `submitAudio` ends: it returns a `bool`, or the division
`SDL_GetQueuedAudioSize(..) / m_FrameSize` is evaluated with `m_FrameSize == 0`. -/
inductive Outcome where
  | returned (b : Bool)
  | divisionByZero
  deriving DecidableEq, Repr

/-- The outcome of a call together with the calls it made, in order. -/
structure Run where
  outcome : Outcome
  calls : List SdlCall
  deriving DecidableEq, Repr

/-- Embedding of the loop `for (int i = 0; i < 100; i++)` of `submitAudio`
(sdlaud.cpp, lines 145-158): `waitLoop env r remaining i` runs the iterations
`i, i+1, ..., i + remaining - 1`; the source loop is `waitLoop env r 100 0`. -/
def waitLoop (env : Env) (r : SdlAudioRenderer) : Nat → Nat → LoopExit × List SdlCall
  | 0, _ => (LoopExit.proceed, [])
  | remaining + 1, i =>
    if env.deviceStatus i = SDL_AudioStatus.SDL_AUDIO_STOPPED then
      (LoopExit.stopped, [SdlCall.SDL_GetAudioDeviceStatus r.m_AudioDevice (env.deviceStatus i)])
    else if r.m_FrameSize = 0 then
      (LoopExit.divisionByZero,
        [SdlCall.SDL_GetAudioDeviceStatus r.m_AudioDevice (env.deviceStatus i),
         SdlCall.SDL_GetQueuedAudioSize r.m_AudioDevice (env.queuedAudioSize i)])
    else if env.queuedAudioSize i / r.m_FrameSize ≤ 10 then
      (LoopExit.proceed,
        [SdlCall.SDL_GetAudioDeviceStatus r.m_AudioDevice (env.deviceStatus i),
         SdlCall.SDL_GetQueuedAudioSize r.m_AudioDevice (env.queuedAudioSize i)])
    else
      ((waitLoop env r remaining (i + 1)).1,
        SdlCall.SDL_GetAudioDeviceStatus r.m_AudioDevice (env.deviceStatus i) ::
        SdlCall.SDL_GetQueuedAudioSize r.m_AudioDevice (env.queuedAudioSize i) ::
        SdlCall.SDL_Delay 1 ::
        (waitLoop env r remaining (i + 1)).2)

/-- Embedding of `SdlAudioRenderer::submitAudio` (sdlaud.cpp, lines 130-167).
`bytesWritten` is the `int` argument; `SDL_QueueAudio` takes its length as
`Uint32`.  The comparison of the `uint32_t` pending duration with the `int`
limit is made in `uint32_t`. -/
def submitAudio (env : Env) (r : SdlAudioRenderer) (bytesWritten : Int) : Run :=
  if bytesWritten = 0 then
    ⟨Outcome.returned true, []⟩
  else if env.pendingAudioDuration >
      toUInt32 (getAdaptiveAudioQueueLimitMs env.apple env.rttInfo) then
    ⟨Outcome.returned true, []⟩
  else
    match waitLoop env r 100 0 with
    | (LoopExit.stopped, calls) => ⟨Outcome.returned false, calls⟩
    | (LoopExit.divisionByZero, calls) => ⟨Outcome.divisionByZero, calls⟩
    | (LoopExit.proceed, calls) =>
      if env.queueAudioResult < 0 then
        ⟨Outcome.returned true,
          calls ++ [SdlCall.SDL_QueueAudio r.m_AudioDevice r.m_AudioBuffer (toUInt32 bytesWritten),
                    SdlCall.SDL_LogError]⟩
      else
        ⟨Outcome.returned true,
          calls ++ [SdlCall.SDL_QueueAudio r.m_AudioDevice r.m_AudioBuffer (toUInt32 bytesWritten)]⟩

/-- The calls and the outcome of `submitAudio` once the loop is left:
the part of `submitAudio` from line 160 on, stated on the result of the loop. -/
def afterLoop (env : Env) (r : SdlAudioRenderer) (bytesWritten : Int)
    (loop : LoopExit × List SdlCall) : Run :=
  match loop with
  | (LoopExit.stopped, calls) => ⟨Outcome.returned false, calls⟩
  | (LoopExit.divisionByZero, calls) => ⟨Outcome.divisionByZero, calls⟩
  | (LoopExit.proceed, calls) =>
    if env.queueAudioResult < 0 then
      ⟨Outcome.returned true,
        calls ++ [SdlCall.SDL_QueueAudio r.m_AudioDevice r.m_AudioBuffer (toUInt32 bytesWritten),
                  SdlCall.SDL_LogError]⟩
    else
      ⟨Outcome.returned true,
        calls ++ [SdlCall.SDL_QueueAudio r.m_AudioDevice r.m_AudioBuffer (toUInt32 bytesWritten)]⟩

/-- Embedding of the body of `SdlAudioRenderer::~SdlAudioRenderer`
(sdlaud.cpp, lines 109-123): the calls it makes and the fields afterwards.
The body assigns no field. -/
def destructor (r : SdlAudioRenderer) : SdlAudioRenderer × List SdlCall :=
  let calls1 : List SdlCall :=
    if r.m_AudioDevice ≠ 0 then
      [SdlCall.SDL_PauseAudioDevice r.m_AudioDevice 1, SdlCall.SDL_CloseAudioDevice r.m_AudioDevice]
    else []
  let calls2 : List SdlCall :=
    match r.m_AudioBuffer with
    | some mem => [SdlCall.SDL_free mem]
    | none => []
  (r, calls1 ++ calls2 ++ [SdlCall.SDL_QuitSubSystem])

/-! ## Observations on a list of calls -/

/-- The call is a device-status poll. -/
def isStatusPoll : SdlCall → Bool
  | SdlCall.SDL_GetAudioDeviceStatus _ _ => true
  | _ => false

/-- The call is a queue-size poll. -/
def isQueuePoll : SdlCall → Bool
  | SdlCall.SDL_GetQueuedAudioSize _ _ => true
  | _ => false

/-- The call is a delay. -/
def isDelay : SdlCall → Bool
  | SdlCall.SDL_Delay _ => true
  | _ => false

/-- The call is an enqueue. -/
def isQueueAudio : SdlCall → Bool
  | SdlCall.SDL_QueueAudio _ _ _ => true
  | _ => false

/-- The call pauses or closes the device, or frees memory. -/
def isRelease : SdlCall → Bool
  | SdlCall.SDL_PauseAudioDevice _ _ => true
  | SdlCall.SDL_CloseAudioDevice _ => true
  | SdlCall.SDL_free _ => true
  | _ => false

/-- The call closes the device. -/
def isClose : SdlCall → Bool
  | SdlCall.SDL_CloseAudioDevice _ => true
  | _ => false

/-- The call frees memory. -/
def isFree : SdlCall → Bool
  | SdlCall.SDL_free _ => true
  | _ => false

/-- The value a call observed, when the call is a queue-size poll. -/
def queuedSizeOf : SdlCall → Option Nat
  | SdlCall.SDL_GetQueuedAudioSize _ q => some q
  | _ => none

/-- The value observed by the last queue-size poll in a list of calls. -/
def lastQueuedAudioSize : List SdlCall → Option Nat
  | [] => none
  | c :: rest =>
    match lastQueuedAudioSize rest with
    | some q => some q
    | none => queuedSizeOf c

/-- The calls of `k` consecutive loop iterations starting at iteration `i`, each
of which polls the status, polls the queue size and delays one unit. -/
def busyIterations (env : Env) (r : SdlAudioRenderer) : Nat → Nat → List SdlCall
  | 0, _ => []
  | k + 1, i =>
    SdlCall.SDL_GetAudioDeviceStatus r.m_AudioDevice (env.deviceStatus i) ::
    SdlCall.SDL_GetQueuedAudioSize r.m_AudioDevice (env.queuedAudioSize i) ::
    SdlCall.SDL_Delay 1 ::
    busyIterations env r k (i + 1)

/-- Loop iteration `i` observes a device that is not stopped and whose queue
holds more than 10 whole frames, so the loop delays and goes round again. -/
def Busy (env : Env) (r : SdlAudioRenderer) (i : Nat) : Prop :=
  env.deviceStatus i ≠ SDL_AudioStatus.SDL_AUDIO_STOPPED ∧
    10 < env.queuedAudioSize i / r.m_FrameSize

/-- Some status poll of the loop is reached and observes the stopped status:
there is an iteration `k < 100` whose status poll answers stopped, all earlier
iterations being busy. -/
def StoppedObserved (env : Env) (r : SdlAudioRenderer) : Prop :=
  ∃ k, k < 100 ∧ env.deviceStatus k = SDL_AudioStatus.SDL_AUDIO_STOPPED ∧
    ∀ j, j < k → Busy env r j

/-- A device that plays until iteration `k`, at which its status is stopped,
and that always holds `q` queued bytes. -/
def stoppingEnv (k : Nat) (q : Nat) : Env :=
  { apple := false
    rttInfo := none
    pendingAudioDuration := 0
    deviceStatus := fun i =>
      if i = k then SDL_AudioStatus.SDL_AUDIO_STOPPED else SDL_AudioStatus.SDL_AUDIO_PLAYING
    queuedAudioSize := fun _ => q
    queueAudioResult := 0 }

/-- A device that is always playing and holds `q` queued bytes until iteration
`k`, from which on its queue is empty. -/
def drainingEnv (k : Nat) (q : Nat) (queueResult : Int) : Env :=
  { apple := false
    rttInfo := none
    pendingAudioDuration := 0
    deviceStatus := fun _ => SDL_AudioStatus.SDL_AUDIO_PLAYING
    queuedAudioSize := fun i => if i < k then q else 0
    queueAudioResult := queueResult }

/-- A device that is always playing and always holds `q` queued bytes. -/
def steadyEnv (pending : Nat) (q : Nat) (queueResult : Int) : Env :=
  { apple := false
    rttInfo := none
    pendingAudioDuration := pending
    deviceStatus := fun _ => SDL_AudioStatus.SDL_AUDIO_PLAYING
    queuedAudioSize := fun _ => q
    queueAudioResult := queueResult }

/-! ## The queue limit -/

theorem toInt32_of_lt (n : Nat) (h : n < 2 ^ 31) : toInt32 (n : Int) = n := by
  unfold toInt32
  omega

theorem toUInt32_of_range (x : Int) (h0 : 0 ≤ x) (h1 : x < 2 ^ 32) :
    ((toUInt32 x : Nat) : Int) = x := by
  unfold toUInt32
  omega

theorem limit_range (apple : Bool) (rttInfo : Option Nat) :
    15 ≤ getAdaptiveAudioQueueLimitMs apple rttInfo ∧
      getAdaptiveAudioQueueLimitMs apple rttInfo ≤ 60 := by
  unfold getAdaptiveAudioQueueLimitMs
  simp only
  constructor <;> split_ifs <;> omega

theorem limit_eq_spec (apple : Bool) (rttInfo : Option Nat)
    (h : ∀ v, rttInfo = some v → v < 2 ^ 32) :
    getAdaptiveAudioQueueLimitMs apple rttInfo = latencyTargetSpec apple rttInfo := by
  cases rttInfo with
  | none =>
    cases apple <;>
      simp [getAdaptiveAudioQueueLimitMs, latencyTargetSpec, platformBaseMs, jitterContributionSpec]
  | some v =>
    have hv : v < 2 ^ 32 := h v rfl
    have hmod : v % 2 ^ 32 = v := Nat.mod_eq_of_lt hv
    have hcast : toInt32 ((v / 2 : Nat) : Int) = ((v / 2 : Nat) : Int) :=
      toInt32_of_lt (v / 2) (by omega)
    unfold getAdaptiveAudioQueueLimitMs latencyTargetSpec platformBaseMs jitterContributionSpec
    simp only [hmod, hcast]
    cases apple <;> simp only [Bool.false_eq_true, if_true, if_false] <;>
      split_ifs <;> omega

theorem limit_toUInt32 (apple : Bool) (rttInfo : Option Nat) :
    ((toUInt32 (getAdaptiveAudioQueueLimitMs apple rttInfo) : Nat) : Int) =
      getAdaptiveAudioQueueLimitMs apple rttInfo := by
  have h := limit_range apple rttInfo
  exact toUInt32_of_range _ (by omega) (by omega)

/-- C1: whatever the jitter query answers (unavailable, or any RTT-variance
sample stored in the unsigned 32-bit variable) and for either platform base,
`getAdaptiveAudioQueueLimitMs` returns a value between 15 and 60. -/
theorem getAdaptiveAudioQueueLimitMs_in_range (apple : Bool) (rttInfo : Option Nat) :
    15 ≤ getAdaptiveAudioQueueLimitMs apple rttInfo ∧
      getAdaptiveAudioQueueLimitMs apple rttInfo ≤ 60 :=
  limit_range apple rttInfo

/-- C2: for an unavailable sample or an unsigned 32-bit sample `v`,
`getAdaptiveAudioQueueLimitMs` equals the reference `clamp(base + c, 15, 60)` with
`c = min(v / 2, 20)` (or 0 when unavailable); unavailable yields exactly the
base (30, or 20 on Apple), and with base 30 the samples 10 and 200 yield 35 and 50. -/
theorem getAdaptiveAudioQueueLimitMs_refines_spec (apple : Bool) (rttInfo : Option Nat)
    (h : ∀ v, rttInfo = some v → v < 2 ^ 32) :
    getAdaptiveAudioQueueLimitMs apple rttInfo = latencyTargetSpec apple rttInfo ∧
      getAdaptiveAudioQueueLimitMs apple none = platformBaseMs apple ∧
      getAdaptiveAudioQueueLimitMs false none = 30 ∧
      getAdaptiveAudioQueueLimitMs true none = 20 ∧
      getAdaptiveAudioQueueLimitMs false (some 10) = 35 ∧
      getAdaptiveAudioQueueLimitMs false (some 200) = 50 := by
  refine ⟨limit_eq_spec apple rttInfo h, ?_, by decide, by decide, by decide, by decide⟩
  cases apple <;> decide

theorem getAdaptiveAudioQueueLimitMs_refines_spec_witness :
    (∀ v, (some 7 : Option Nat) = some v → v < 2 ^ 32) ∧
      getAdaptiveAudioQueueLimitMs true (some 7) = 23 ∧
      latencyTargetSpec true (some 7) = 23 :=
  ⟨by intro v hv; cases hv; decide,
   by decide,
   by
    have h := (getAdaptiveAudioQueueLimitMs_refines_spec true (some 7)
      (by intro v hv; cases hv; decide)).1
    rw [← h]; decide⟩

/-- C3: with jitter information available and the platform fixed, the limit is
non-decreasing in the unsigned 32-bit RTT-variance sample, it grows by at most
20 over the whole range, and it is constant from sample 40 on. -/
theorem getAdaptiveAudioQueueLimitMs_mono (apple : Bool) (v1 v2 : Nat)
    (h12 : v1 ≤ v2) (h2 : v2 < 2 ^ 32) :
    getAdaptiveAudioQueueLimitMs apple (some v1) ≤ getAdaptiveAudioQueueLimitMs apple (some v2) ∧
      getAdaptiveAudioQueueLimitMs apple (some v2) - getAdaptiveAudioQueueLimitMs apple (some v1) ≤ 20 ∧
      (40 ≤ v1 →
        getAdaptiveAudioQueueLimitMs apple (some v1) = getAdaptiveAudioQueueLimitMs apple (some v2)) := by
  have e1 := limit_eq_spec apple (some v1) (by intro v hv; cases hv; omega)
  have e2 := limit_eq_spec apple (some v2) (by intro v hv; cases hv; omega)
  rw [e1, e2]
  unfold latencyTargetSpec platformBaseMs jitterContributionSpec
  cases apple <;> simp only [Bool.false_eq_true, if_true, if_false] <;>
    (refine ⟨?_, ?_, ?_⟩ <;> omega)

theorem getAdaptiveAudioQueueLimitMs_mono_witness :
    (10 : Nat) ≤ 200 ∧ (200 : Nat) < 2 ^ 32 ∧
      getAdaptiveAudioQueueLimitMs false (some 10) ≤ getAdaptiveAudioQueueLimitMs false (some 200) :=
  ⟨by decide, by decide,
   (getAdaptiveAudioQueueLimitMs_mono false 10 200 (by decide) (by decide)).1⟩

/-! ## The back-pressure loop -/

theorem waitLoop_stopped_step (env : Env) (r : SdlAudioRenderer) (n i : Nat)
    (h : env.deviceStatus i = SDL_AudioStatus.SDL_AUDIO_STOPPED) :
    waitLoop env r (n + 1) i =
      (LoopExit.stopped,
        [SdlCall.SDL_GetAudioDeviceStatus r.m_AudioDevice (env.deviceStatus i)]) := by
  simp [waitLoop, h]

theorem waitLoop_zero_step (env : Env) (r : SdlAudioRenderer) (n i : Nat)
    (h : env.deviceStatus i ≠ SDL_AudioStatus.SDL_AUDIO_STOPPED) (hf : r.m_FrameSize = 0) :
    waitLoop env r (n + 1) i =
      (LoopExit.divisionByZero,
        [SdlCall.SDL_GetAudioDeviceStatus r.m_AudioDevice (env.deviceStatus i),
         SdlCall.SDL_GetQueuedAudioSize r.m_AudioDevice (env.queuedAudioSize i)]) := by
  simp [waitLoop, h, hf]

theorem waitLoop_ready_step (env : Env) (r : SdlAudioRenderer) (n i : Nat)
    (h : env.deviceStatus i ≠ SDL_AudioStatus.SDL_AUDIO_STOPPED) (hf : r.m_FrameSize ≠ 0)
    (hq : env.queuedAudioSize i / r.m_FrameSize ≤ 10) :
    waitLoop env r (n + 1) i =
      (LoopExit.proceed,
        [SdlCall.SDL_GetAudioDeviceStatus r.m_AudioDevice (env.deviceStatus i),
         SdlCall.SDL_GetQueuedAudioSize r.m_AudioDevice (env.queuedAudioSize i)]) := by
  simp [waitLoop, h, hf, hq]

theorem busy_frameSize_ne_zero (env : Env) (r : SdlAudioRenderer) (i : Nat)
    (h : Busy env r i) : r.m_FrameSize ≠ 0 := by
  intro hf
  have h2 := h.2
  rw [hf, Nat.div_zero] at h2
  omega

theorem waitLoop_busy_step (env : Env) (r : SdlAudioRenderer) (n i : Nat)
    (h : Busy env r i) :
    waitLoop env r (n + 1) i =
      ((waitLoop env r n (i + 1)).1,
        SdlCall.SDL_GetAudioDeviceStatus r.m_AudioDevice (env.deviceStatus i) ::
        SdlCall.SDL_GetQueuedAudioSize r.m_AudioDevice (env.queuedAudioSize i) ::
        SdlCall.SDL_Delay 1 ::
        (waitLoop env r n (i + 1)).2) := by
  have hf := busy_frameSize_ne_zero env r i h
  have hq : ¬ env.queuedAudioSize i / r.m_FrameSize ≤ 10 := by have := h.2; omega
  simp [waitLoop, h.1, hf, hq]

/-- After `k` busy iterations the loop continues with the iterations left. -/
theorem waitLoop_busy (env : Env) (r : SdlAudioRenderer) (m : Nat) :
    ∀ (k i : Nat), (∀ j, j < k → Busy env r (i + j)) →
      waitLoop env r (k + m) i =
        ((waitLoop env r m (i + k)).1,
          busyIterations env r k i ++ (waitLoop env r m (i + k)).2) := by
  intro k
  induction k with
  | zero => intro i _; simp [busyIterations]
  | succ k ih =>
    intro i h
    have h0 : Busy env r i := by simpa using h 0 (by omega)
    have hrest : ∀ j, j < k → Busy env r (i + 1 + j) := by
      intro j hj
      have := h (j + 1) (by omega)
      rwa [show i + (j + 1) = i + 1 + j by omega] at this
    have e : k + 1 + m = (k + m) + 1 := by omega
    rw [e, waitLoop_busy_step env r (k + m) i h0, ih (i + 1) hrest]
    simp [busyIterations, show i + 1 + k = i + (k + 1) by omega]

/-- Every run of the loop is of one of four shapes: all iterations busy, or a
first iteration that is not busy, at which the loop is left through the stopped
check, through the division, or through the `break`. -/
theorem waitLoop_cases (env : Env) (r : SdlAudioRenderer) (n i : Nat) :
    ((∀ j, j < n → Busy env r (i + j)) ∧
        waitLoop env r n i = (LoopExit.proceed, busyIterations env r n i)) ∨
      ∃ k, k < n ∧ (∀ j, j < k → Busy env r (i + j)) ∧
        ((env.deviceStatus (i + k) = SDL_AudioStatus.SDL_AUDIO_STOPPED ∧
            waitLoop env r n i =
              (LoopExit.stopped, busyIterations env r k i ++
                [SdlCall.SDL_GetAudioDeviceStatus r.m_AudioDevice (env.deviceStatus (i + k))])) ∨
          (env.deviceStatus (i + k) ≠ SDL_AudioStatus.SDL_AUDIO_STOPPED ∧ r.m_FrameSize = 0 ∧
            waitLoop env r n i =
              (LoopExit.divisionByZero, busyIterations env r k i ++
                [SdlCall.SDL_GetAudioDeviceStatus r.m_AudioDevice (env.deviceStatus (i + k)),
                 SdlCall.SDL_GetQueuedAudioSize r.m_AudioDevice (env.queuedAudioSize (i + k))])) ∨
          (env.deviceStatus (i + k) ≠ SDL_AudioStatus.SDL_AUDIO_STOPPED ∧ r.m_FrameSize ≠ 0 ∧
            env.queuedAudioSize (i + k) / r.m_FrameSize ≤ 10 ∧
            waitLoop env r n i =
              (LoopExit.proceed, busyIterations env r k i ++
                [SdlCall.SDL_GetAudioDeviceStatus r.m_AudioDevice (env.deviceStatus (i + k)),
                 SdlCall.SDL_GetQueuedAudioSize r.m_AudioDevice (env.queuedAudioSize (i + k))]))) := by
  by_cases hall : ∀ j, j < n → Busy env r (i + j)
  · left
    refine ⟨hall, ?_⟩
    have := waitLoop_busy env r 0 n i hall
    simpa [waitLoop] using this
  · right
    have hex : ∃ k, k < n ∧ ¬ Busy env r (i + k) := by
      by_contra hne
      apply hall
      intro j hj
      by_contra hb
      exact hne ⟨j, hj, hb⟩
    classical
    let k := Nat.find hex
    have hk : k < n ∧ ¬ Busy env r (i + k) := Nat.find_spec hex
    have hmin : ∀ j, j < k → Busy env r (i + j) := by
      intro j hj
      by_contra hb
      exact Nat.find_min hex hj ⟨by omega, hb⟩
    refine ⟨k, hk.1, hmin, ?_⟩
    obtain ⟨m, hm⟩ : ∃ m, n = k + (m + 1) := ⟨n - k - 1, by omega⟩
    have hsplit := waitLoop_busy env r (m + 1) k i hmin
    rw [← hm] at hsplit
    by_cases hs : env.deviceStatus (i + k) = SDL_AudioStatus.SDL_AUDIO_STOPPED
    · left
      refine ⟨hs, ?_⟩
      rw [hsplit, waitLoop_stopped_step env r m (i + k) hs]
    · right
      by_cases hf : r.m_FrameSize = 0
      · left
        refine ⟨hs, hf, ?_⟩
        rw [hsplit, waitLoop_zero_step env r m (i + k) hs hf]
      · right
        have hq : env.queuedAudioSize (i + k) / r.m_FrameSize ≤ 10 := by
          by_contra hq
          exact hk.2 ⟨hs, by omega⟩
        refine ⟨hs, hf, hq, ?_⟩
        rw [hsplit, waitLoop_ready_step env r m (i + k) hs hf hq]

theorem countP_busyIterations (env : Env) (r : SdlAudioRenderer) :
    ∀ (k i : Nat),
      List.countP isStatusPoll (busyIterations env r k i) = k ∧
      List.countP isQueuePoll (busyIterations env r k i) = k ∧
      List.countP isDelay (busyIterations env r k i) = k ∧
      List.countP isQueueAudio (busyIterations env r k i) = 0 := by
  intro k
  induction k with
  | zero => intro i; simp [busyIterations]
  | succ k ih =>
    intro i
    obtain ⟨h1, h2, h3, h4⟩ := ih (i + 1)
    simp [busyIterations, List.countP_cons, isStatusPoll, isQueuePoll, isDelay, isQueueAudio,
      h1, h2, h3, h4]

theorem waitLoop_head (env : Env) (r : SdlAudioRenderer) (n i : Nat) :
    ((waitLoop env r (n + 1) i).2).head? =
      some (SdlCall.SDL_GetAudioDeviceStatus r.m_AudioDevice (env.deviceStatus i)) := by
  simp only [waitLoop]
  split_ifs <;> rfl

theorem waitLoop_calls_kind (env : Env) (r : SdlAudioRenderer) :
    ∀ (n i : Nat) (c : SdlCall), c ∈ (waitLoop env r n i).2 →
      (∃ st, c = SdlCall.SDL_GetAudioDeviceStatus r.m_AudioDevice st) ∨
      (∃ q, c = SdlCall.SDL_GetQueuedAudioSize r.m_AudioDevice q) ∨
      c = SdlCall.SDL_Delay 1 := by
  intro n
  induction n with
  | zero => intro i c h; simp [waitLoop] at h
  | succ n ih =>
    intro i c h
    simp only [waitLoop] at h
    split_ifs at h
    · simp only [List.mem_singleton] at h
      exact Or.inl ⟨_, h⟩
    · simp only [List.mem_cons, List.mem_singleton, List.not_mem_nil, or_false] at h
      rcases h with h | h
      · exact Or.inl ⟨_, h⟩
      · exact Or.inr (Or.inl ⟨_, h⟩)
    · simp only [List.mem_cons, List.mem_singleton, List.not_mem_nil, or_false] at h
      rcases h with h | h
      · exact Or.inl ⟨_, h⟩
      · exact Or.inr (Or.inl ⟨_, h⟩)
    · simp only [List.mem_cons] at h
      rcases h with h | h | h | h
      · exact Or.inl ⟨_, h⟩
      · exact Or.inr (Or.inl ⟨_, h⟩)
      · exact Or.inr (Or.inr h)
      · exact ih (i + 1) c h

theorem waitLoop_counts (env : Env) (r : SdlAudioRenderer) :
    ∀ (n i : Nat),
      List.countP isStatusPoll (waitLoop env r n i).2 ≤ n ∧
      List.countP isQueuePoll (waitLoop env r n i).2 ≤ n ∧
      List.countP isDelay (waitLoop env r n i).2 ≤ n ∧
      List.countP isQueueAudio (waitLoop env r n i).2 = 0 := by
  intro n
  induction n with
  | zero => intro i; simp [waitLoop]
  | succ n ih =>
    intro i
    obtain ⟨h1, h2, h3, h4⟩ := ih (i + 1)
    simp only [waitLoop]
    split_ifs <;>
      simp [List.countP_cons, isStatusPoll, isQueuePoll, isDelay, isQueueAudio, h4]
    omega

theorem waitLoop_length (env : Env) (r : SdlAudioRenderer) :
    ∀ (n i : Nat), (waitLoop env r n i).2.length ≤ 3 * n := by
  intro n
  induction n with
  | zero => intro i; simp [waitLoop]
  | succ n ih =>
    intro i
    have h := ih (i + 1)
    simp only [waitLoop]
    split_ifs <;> simp only [List.length_cons, List.length_nil] <;> omega

theorem waitLoop_exit_stopped_iff (env : Env) (r : SdlAudioRenderer) :
    (waitLoop env r 100 0).1 = LoopExit.stopped ↔ StoppedObserved env r := by
  constructor
  · intro h
    rcases waitLoop_cases env r 100 0 with ⟨_, e⟩ | ⟨k, hk, hb, hc⟩
    · rw [e] at h; cases h
    · rcases hc with ⟨hs, _⟩ | ⟨_, _, e⟩ | ⟨_, _, _, e⟩
      · refine ⟨k, hk, by simpa using hs, ?_⟩
        intro j hj
        simpa using hb j hj
      · rw [e] at h; cases h
      · rw [e] at h; cases h
  · rintro ⟨k, hk, hs, hb⟩
    have hb0 : ∀ j, j < k → Busy env r (0 + j) := by
      intro j hj; rw [Nat.zero_add]; exact hb j hj
    obtain ⟨m, hm⟩ : ∃ m, 100 = k + (m + 1) := ⟨100 - k - 1, by omega⟩
    have hloop := waitLoop_busy env r (m + 1) k 0 hb0
    rw [← hm, Nat.zero_add, waitLoop_stopped_step env r m k hs] at hloop
    rw [hloop]

theorem waitLoop_exit_zero (env : Env) (r : SdlAudioRenderer)
    (h : (waitLoop env r 100 0).1 = LoopExit.divisionByZero) : r.m_FrameSize = 0 := by
  rcases waitLoop_cases env r 100 0 with ⟨_, e⟩ | ⟨k, _, _, hc⟩
  · rw [e] at h; cases h
  · rcases hc with ⟨_, e⟩ | ⟨_, hf, _⟩ | ⟨_, _, _, e⟩
    · rw [e] at h; cases h
    · exact hf
    · rw [e] at h; cases h

theorem lastQueuedAudioSize_cons (c : SdlCall) (rest : List SdlCall) :
    lastQueuedAudioSize (c :: rest) =
      match lastQueuedAudioSize rest with
      | some q => some q
      | none => queuedSizeOf c := rfl

theorem lastQueuedAudioSize_append (l1 l2 : List SdlCall) :
    lastQueuedAudioSize (l1 ++ l2) =
      match lastQueuedAudioSize l2 with
      | some q => some q
      | none => lastQueuedAudioSize l1 := by
  induction l1 with
  | nil =>
    simp only [List.nil_append, lastQueuedAudioSize]
    cases lastQueuedAudioSize l2 <;> rfl
  | cons c rest ih =>
    rw [List.cons_append, lastQueuedAudioSize_cons, ih, lastQueuedAudioSize_cons]
    cases lastQueuedAudioSize l2 <;> rfl

/-! ## `submitAudio` -/

theorem pending_gt_iff (env : Env) :
    env.pendingAudioDuration > toUInt32 (getAdaptiveAudioQueueLimitMs env.apple env.rttInfo) ↔
      getAdaptiveAudioQueueLimitMs env.apple env.rttInfo < (env.pendingAudioDuration : Int) := by
  have h := limit_toUInt32 env.apple env.rttInfo
  omega

theorem submitAudio_enter (env : Env) (r : SdlAudioRenderer) (bytesWritten : Int)
    (hn : bytesWritten ≠ 0)
    (hp : (env.pendingAudioDuration : Int) ≤ getAdaptiveAudioQueueLimitMs env.apple env.rttInfo) :
    submitAudio env r bytesWritten = afterLoop env r bytesWritten (waitLoop env r 100 0) := by
  have hp2 : ¬ env.pendingAudioDuration >
      toUInt32 (getAdaptiveAudioQueueLimitMs env.apple env.rttInfo) := by
    rw [pending_gt_iff]; omega
  unfold submitAudio afterLoop
  rw [if_neg hn, if_neg hp2]

theorem submitAudio_drop (env : Env) (r : SdlAudioRenderer) (bytesWritten : Int)
    (hp : getAdaptiveAudioQueueLimitMs env.apple env.rttInfo < (env.pendingAudioDuration : Int)) :
    submitAudio env r bytesWritten = ⟨Outcome.returned true, []⟩ := by
  have hp2 := (pending_gt_iff env).2 hp
  unfold submitAudio
  by_cases hn : bytesWritten = 0
  · rw [if_pos hn]
  · rw [if_neg hn, if_pos hp2]

/-- C4: for `bytesWritten != 0`, if the pending-audio duration is strictly
greater than the current limit, `submitAudio` returns true and makes no call at
all (no status poll, no queue-size poll, no delay, no enqueue); the comparison
is strict, so with pending at most the limit the first status poll is made. -/
theorem submitAudio_drops_when_pending_exceeds (env : Env) (r : SdlAudioRenderer)
    (bytesWritten : Int) (hn : bytesWritten ≠ 0) :
    (getAdaptiveAudioQueueLimitMs env.apple env.rttInfo < (env.pendingAudioDuration : Int) →
        submitAudio env r bytesWritten = ⟨Outcome.returned true, []⟩) ∧
      ((env.pendingAudioDuration : Int) ≤ getAdaptiveAudioQueueLimitMs env.apple env.rttInfo →
        (submitAudio env r bytesWritten).calls.head? =
          some (SdlCall.SDL_GetAudioDeviceStatus r.m_AudioDevice (env.deviceStatus 0))) := by
  refine ⟨fun hp => submitAudio_drop env r bytesWritten hp, fun hp => ?_⟩
  rw [submitAudio_enter env r bytesWritten hn hp]
  have hh := waitLoop_head env r 99 0
  generalize waitLoop env r (99 + 1) 0 = loop at hh
  obtain ⟨e, calls⟩ := loop
  cases calls with
  | nil => simp at hh
  | cons c rest =>
    simp only [List.head?_cons, Option.some.injEq] at hh
    subst hh
    cases e <;> simp only [afterLoop] <;> try split_ifs
    all_goals rfl

theorem submitAudio_drops_when_pending_exceeds_witness :
    submitAudio (steadyEnv 31 0 0) ⟨1, some 1, 4⟩ 960 = ⟨Outcome.returned true, []⟩ ∧
      (submitAudio (steadyEnv 30 0 0) ⟨1, some 1, 4⟩ 960).calls.head? =
        some (SdlCall.SDL_GetAudioDeviceStatus 1 SDL_AudioStatus.SDL_AUDIO_PLAYING) :=
  ⟨(submitAudio_drops_when_pending_exceeds (steadyEnv 31 0 0) ⟨1, some 1, 4⟩ 960 (by decide)).1
      (by decide),
   (submitAudio_drops_when_pending_exceeds (steadyEnv 30 0 0) ⟨1, some 1, 4⟩ 960 (by decide)).2
      (by decide)⟩

/-- C5: for `bytesWritten != 0` with pending at most the limit, if iteration
`k < 100` is reached (all earlier iterations saw a non-stopped status and more
than 10 queued frames) and its status poll answers stopped, `submitAudio`
returns false, never calls `SDL_QueueAudio`, and, the stopped check coming
first, makes no queue-size poll in iteration `k`, whatever the queue holds. -/
theorem submitAudio_stopped_is_permanent_failure (env : Env) (r : SdlAudioRenderer)
    (bytesWritten : Int) (k : Nat) (hn : bytesWritten ≠ 0)
    (hp : (env.pendingAudioDuration : Int) ≤ getAdaptiveAudioQueueLimitMs env.apple env.rttInfo)
    (hk : k < 100)
    (hbusy : ∀ i, i < k → env.deviceStatus i ≠ SDL_AudioStatus.SDL_AUDIO_STOPPED ∧
      10 < env.queuedAudioSize i / r.m_FrameSize)
    (hs : env.deviceStatus k = SDL_AudioStatus.SDL_AUDIO_STOPPED) :
    submitAudio env r bytesWritten =
        ⟨Outcome.returned false,
          busyIterations env r k 0 ++
            [SdlCall.SDL_GetAudioDeviceStatus r.m_AudioDevice SDL_AudioStatus.SDL_AUDIO_STOPPED]⟩ ∧
      List.countP isQueueAudio (submitAudio env r bytesWritten).calls = 0 ∧
      List.countP isQueuePoll (submitAudio env r bytesWritten).calls = k ∧
      List.countP isStatusPoll (submitAudio env r bytesWritten).calls = k + 1 := by
  have hb : ∀ j, j < k → Busy env r (0 + j) := by
    intro j hj
    rw [Nat.zero_add]
    exact hbusy j hj
  obtain ⟨m, hm⟩ : ∃ m, 100 = k + (m + 1) := ⟨100 - k - 1, by omega⟩
  have hloop := waitLoop_busy env r (m + 1) k 0 hb
  rw [← hm, Nat.zero_add, waitLoop_stopped_step env r m k hs] at hloop
  have hrun : submitAudio env r bytesWritten =
      ⟨Outcome.returned false,
        busyIterations env r k 0 ++
          [SdlCall.SDL_GetAudioDeviceStatus r.m_AudioDevice SDL_AudioStatus.SDL_AUDIO_STOPPED]⟩ := by
    rw [submitAudio_enter env r bytesWritten hn hp, hloop, hs]
    rfl
  obtain ⟨c1, c2, _, c4⟩ := countP_busyIterations env r k 0
  refine ⟨hrun, ?_, ?_, ?_⟩ <;> rw [hrun] <;>
    simp [List.countP_append, List.countP_cons, c1, c2, c4, isQueueAudio, isQueuePoll,
      isStatusPoll]

theorem submitAudio_stopped_is_permanent_failure_witness :
    submitAudio (stoppingEnv 2 44) ⟨1, some 1, 4⟩ 960 =
      ⟨Outcome.returned false,
        [SdlCall.SDL_GetAudioDeviceStatus 1 SDL_AudioStatus.SDL_AUDIO_PLAYING,
         SdlCall.SDL_GetQueuedAudioSize 1 44,
         SdlCall.SDL_Delay 1,
         SdlCall.SDL_GetAudioDeviceStatus 1 SDL_AudioStatus.SDL_AUDIO_PLAYING,
         SdlCall.SDL_GetQueuedAudioSize 1 44,
         SdlCall.SDL_Delay 1,
         SdlCall.SDL_GetAudioDeviceStatus 1 SDL_AudioStatus.SDL_AUDIO_STOPPED]⟩ :=
  (submitAudio_stopped_is_permanent_failure (stoppingEnv 2 44) ⟨1, some 1, 4⟩ 960 2
    (by decide) (by decide) (by decide)
    (by intro i hi; interval_cases i <;> decide) (by decide)).1

theorem toUInt32_of_int (n : Int) (h0 : 0 < n) (h1 : n < 2 ^ 31) : toUInt32 n = n.toNat := by
  unfold toUInt32
  omega

/-- C6: for `0 < bytesWritten` (an `int`), pending at most the limit and a
positive frame size, if at some iteration `k < 100` the queue holds at most 10
whole frames and no status poll of iterations `0..k` answers stopped, then, with
`k1` the least iteration whose queue depth is at most 10, `submitAudio` makes
`k1` busy iterations, one more status and queue-size poll, exactly one
`SDL_QueueAudio` call of exactly `bytesWritten` bytes from `m_AudioBuffer`
(followed by the error log when it fails), exactly `k1` one-unit delays, and
returns true. -/
theorem submitAudio_enqueues_once (env : Env) (r : SdlAudioRenderer)
    (bytesWritten : Int) (k : Nat) (hn : 0 < bytesWritten) (hint : bytesWritten < 2 ^ 31)
    (hp : (env.pendingAudioDuration : Int) ≤ getAdaptiveAudioQueueLimitMs env.apple env.rttInfo)
    (hf : 0 < r.m_FrameSize) (hk : k < 100)
    (hq : env.queuedAudioSize k / r.m_FrameSize ≤ 10)
    (hs : ∀ i, i ≤ k → env.deviceStatus i ≠ SDL_AudioStatus.SDL_AUDIO_STOPPED) :
    ∃ k1, k1 ≤ k ∧ env.queuedAudioSize k1 / r.m_FrameSize ≤ 10 ∧
      (∀ i, i < k1 → 10 < env.queuedAudioSize i / r.m_FrameSize) ∧
      submitAudio env r bytesWritten =
        ⟨Outcome.returned true,
          busyIterations env r k1 0 ++
            [SdlCall.SDL_GetAudioDeviceStatus r.m_AudioDevice (env.deviceStatus k1),
             SdlCall.SDL_GetQueuedAudioSize r.m_AudioDevice (env.queuedAudioSize k1),
             SdlCall.SDL_QueueAudio r.m_AudioDevice r.m_AudioBuffer bytesWritten.toNat] ++
            (if env.queueAudioResult < 0 then [SdlCall.SDL_LogError] else [])⟩ ∧
      List.countP isQueueAudio (submitAudio env r bytesWritten).calls = 1 ∧
      List.countP isDelay (submitAudio env r bytesWritten).calls = k1 := by
  classical
  have hex : ∃ j, env.queuedAudioSize j / r.m_FrameSize ≤ 10 := ⟨k, hq⟩
  have hk1 : Nat.find hex ≤ k := Nat.find_min' hex hq
  have hq1 : env.queuedAudioSize (Nat.find hex) / r.m_FrameSize ≤ 10 := Nat.find_spec hex
  have hlt : ∀ i, i < Nat.find hex → 10 < env.queuedAudioSize i / r.m_FrameSize := by
    intro i hi
    have := Nat.find_min hex hi
    omega
  generalize Nat.find hex = k1 at hk1 hq1 hlt
  have hb : ∀ j, j < k1 → Busy env r (0 + j) := by
    intro j hj
    rw [Nat.zero_add]
    exact ⟨hs j (by omega), hlt j hj⟩
  obtain ⟨m, hm⟩ : ∃ m, 100 = k1 + (m + 1) := ⟨100 - k1 - 1, by omega⟩
  have hloop := waitLoop_busy env r (m + 1) k1 0 hb
  rw [← hm, Nat.zero_add,
    waitLoop_ready_step env r m k1 (hs k1 hk1) (by omega) hq1] at hloop
  have hlen : toUInt32 bytesWritten = bytesWritten.toNat := toUInt32_of_int bytesWritten hn hint
  have hrun : submitAudio env r bytesWritten =
      ⟨Outcome.returned true,
        busyIterations env r k1 0 ++
          [SdlCall.SDL_GetAudioDeviceStatus r.m_AudioDevice (env.deviceStatus k1),
           SdlCall.SDL_GetQueuedAudioSize r.m_AudioDevice (env.queuedAudioSize k1),
           SdlCall.SDL_QueueAudio r.m_AudioDevice r.m_AudioBuffer bytesWritten.toNat] ++
          (if env.queueAudioResult < 0 then [SdlCall.SDL_LogError] else [])⟩ := by
    rw [submitAudio_enter env r bytesWritten (by omega) hp, hloop]
    simp only [afterLoop, hlen]
    split_ifs <;> simp
  obtain ⟨_, _, c3, c4⟩ := countP_busyIterations env r k1 0
  refine ⟨k1, hk1, hq1, hlt, hrun, ?_, ?_⟩ <;> rw [hrun] <;> split_ifs <;>
    simp [List.countP_append, List.countP_cons, c3, c4, isQueueAudio, isDelay]

theorem submitAudio_enqueues_once_witness :
    List.countP isQueueAudio
        (submitAudio (drainingEnv 3 44 (-1)) ⟨1, some 1, 4⟩ 960).calls = 1 ∧
      ∃ k1, k1 ≤ 5 ∧
        List.countP isDelay (submitAudio (drainingEnv 3 44 (-1)) ⟨1, some 1, 4⟩ 960).calls = k1 := by
  obtain ⟨k1, h1, _, _, _, h5, h6⟩ :=
    submitAudio_enqueues_once (drainingEnv 3 44 (-1)) ⟨1, some 1, 4⟩ 960 5
      (by decide) (by decide) (by decide) (by decide) (by decide) (by decide)
      (by intro i _; simp [drainingEnv])
  exact ⟨h5, k1, h1, h6⟩

theorem afterLoop_outcome (env : Env) (r : SdlAudioRenderer) (bytesWritten : Int)
    (loop : LoopExit × List SdlCall) :
    (afterLoop env r bytesWritten loop).outcome =
      match loop.1 with
      | LoopExit.stopped => Outcome.returned false
      | LoopExit.divisionByZero => Outcome.divisionByZero
      | LoopExit.proceed => Outcome.returned true := by
  obtain ⟨e, calls⟩ := loop
  cases e <;> simp only [afterLoop]
  split_ifs <;> rfl

theorem afterLoop_calls (env : Env) (r : SdlAudioRenderer) (bytesWritten : Int)
    (loop : LoopExit × List SdlCall) :
    (afterLoop env r bytesWritten loop).calls =
      loop.2 ++
        (match loop.1 with
          | LoopExit.proceed =>
            SdlCall.SDL_QueueAudio r.m_AudioDevice r.m_AudioBuffer (toUInt32 bytesWritten) ::
              (if env.queueAudioResult < 0 then [SdlCall.SDL_LogError] else [])
          | _ => []) := by
  obtain ⟨e, calls⟩ := loop
  cases e <;> simp only [afterLoop] <;> try split_ifs
  all_goals simp

theorem submitAudio_cases (env : Env) (r : SdlAudioRenderer) (bytesWritten : Int) :
    submitAudio env r bytesWritten = ⟨Outcome.returned true, []⟩ ∨
      (bytesWritten ≠ 0 ∧
        (env.pendingAudioDuration : Int) ≤ getAdaptiveAudioQueueLimitMs env.apple env.rttInfo ∧
        submitAudio env r bytesWritten = afterLoop env r bytesWritten (waitLoop env r 100 0)) := by
  by_cases hn : bytesWritten = 0
  · left
    unfold submitAudio
    rw [if_pos hn]
  · by_cases hp : getAdaptiveAudioQueueLimitMs env.apple env.rttInfo <
        (env.pendingAudioDuration : Int)
    · left
      exact submitAudio_drop env r bytesWritten hp
    · right
      exact ⟨hn, by omega, submitAudio_enter env r bytesWritten hn (by omega)⟩

theorem submitAudio_counts (env : Env) (r : SdlAudioRenderer) (bytesWritten : Int) :
    List.countP isStatusPoll (submitAudio env r bytesWritten).calls ≤ 100 ∧
      List.countP isQueuePoll (submitAudio env r bytesWritten).calls ≤ 100 ∧
      List.countP isDelay (submitAudio env r bytesWritten).calls ≤ 100 ∧
      List.countP isQueueAudio (submitAudio env r bytesWritten).calls ≤ 1 := by
  rcases submitAudio_cases env r bytesWritten with h | ⟨_, _, h⟩
  · rw [h]; simp
  · obtain ⟨h1, h2, h3, h4⟩ := waitLoop_counts env r 100 0
    rw [h, afterLoop_calls]
    simp only [List.countP_append, h4]
    cases (waitLoop env r 100 0).1 <;> simp only <;> (try split_ifs) <;>
      simp [List.countP_cons, isStatusPoll, isQueuePoll, isDelay, isQueueAudio, h1, h2, h3]

theorem submitAudio_delay_unit (env : Env) (r : SdlAudioRenderer) (bytesWritten : Int)
    (ms : Nat) (h : SdlCall.SDL_Delay ms ∈ (submitAudio env r bytesWritten).calls) : ms = 1 := by
  rcases submitAudio_cases env r bytesWritten with e | ⟨_, _, e⟩
  · rw [e] at h; simp at h
  · rw [e, afterLoop_calls, List.mem_append] at h
    rcases h with h | h
    · rcases waitLoop_calls_kind env r 100 0 _ h with ⟨_, hc⟩ | ⟨_, hc⟩ | hc
      · cases hc
      · cases hc
      · cases hc; rfl
    · revert h
      cases (waitLoop env r 100 0).1 <;> simp only <;> (try split_ifs) <;> simp

theorem submitAudio_all_busy (env : Env) (r : SdlAudioRenderer) (bytesWritten : Int)
    (hn : bytesWritten ≠ 0)
    (hp : (env.pendingAudioDuration : Int) ≤ getAdaptiveAudioQueueLimitMs env.apple env.rttInfo)
    (hb : ∀ j, j < 100 → Busy env r j) :
    submitAudio env r bytesWritten =
      ⟨Outcome.returned true,
        busyIterations env r 100 0 ++
          (SdlCall.SDL_QueueAudio r.m_AudioDevice r.m_AudioBuffer (toUInt32 bytesWritten) ::
            (if env.queueAudioResult < 0 then [SdlCall.SDL_LogError] else []))⟩ := by
  have hb0 : ∀ j, j < 100 → Busy env r (0 + j) := by
    intro j hj; rw [Nat.zero_add]; exact hb j hj
  have hloop := waitLoop_busy env r 0 100 0 hb0
  have hz : waitLoop env r 0 (0 + 100) = (LoopExit.proceed, []) := rfl
  rw [hz, List.append_nil] at hloop
  rw [submitAudio_enter env r bytesWritten hn hp, hloop]
  simp only [afterLoop]
  split_ifs <;> rfl

/-- C7: `submitAudio` returns false exactly when a status poll reached inside
the wait loop answers stopped.  With `bytesWritten == 0` it returns true with no
call at all; a dropped frame returns true; and whenever `SDL_QueueAudio` is
called (after a drained queue or an exhausted budget) it returns true whatever
`SDL_QueueAudio` answers, a negative answer being logged.  With a non-zero frame
size every run without an observed stop returns true. -/
theorem submitAudio_false_iff_stopped (env : Env) (r : SdlAudioRenderer) (bytesWritten : Int) :
    ((submitAudio env r bytesWritten).outcome = Outcome.returned false ↔
        bytesWritten ≠ 0 ∧
        (env.pendingAudioDuration : Int) ≤ getAdaptiveAudioQueueLimitMs env.apple env.rttInfo ∧
        StoppedObserved env r) ∧
      (bytesWritten = 0 → submitAudio env r bytesWritten = ⟨Outcome.returned true, []⟩) ∧
      (getAdaptiveAudioQueueLimitMs env.apple env.rttInfo < (env.pendingAudioDuration : Int) →
        submitAudio env r bytesWritten = ⟨Outcome.returned true, []⟩) ∧
      (List.countP isQueueAudio (submitAudio env r bytesWritten).calls ≠ 0 →
        (submitAudio env r bytesWritten).outcome = Outcome.returned true ∧
        (SdlCall.SDL_LogError ∈ (submitAudio env r bytesWritten).calls ↔
          env.queueAudioResult < 0)) ∧
      ((∀ j, j < 100 → Busy env r j) →
        (submitAudio env r bytesWritten).outcome = Outcome.returned true) ∧
      (0 < r.m_FrameSize → ¬ StoppedObserved env r →
        (submitAudio env r bytesWritten).outcome = Outcome.returned true) := by
  have hdrop0 : bytesWritten = 0 → submitAudio env r bytesWritten = ⟨Outcome.returned true, []⟩ := by
    intro hn
    unfold submitAudio
    rw [if_pos hn]
  refine ⟨?_, hdrop0, submitAudio_drop env r bytesWritten, ?_, ?_, ?_⟩
  · rcases submitAudio_cases env r bytesWritten with h | ⟨hn, hp, h⟩
    · constructor
      · intro hf
        rw [h] at hf
        cases hf
      · rintro ⟨hn, hp, hs⟩
        exfalso
        have h2 := submitAudio_enter env r bytesWritten hn hp
        rw [h] at h2
        have h3 := congrArg Run.outcome h2
        rw [afterLoop_outcome, (waitLoop_exit_stopped_iff env r).2 hs] at h3
        cases h3
    · rw [h, afterLoop_outcome, ← waitLoop_exit_stopped_iff]
      constructor
      · intro hf
        refine ⟨hn, hp, ?_⟩
        revert hf
        cases (waitLoop env r 100 0).1 <;> simp
      · rintro ⟨_, _, hs⟩
        rw [hs]
  · intro hq
    rcases submitAudio_cases env r bytesWritten with h | ⟨hn, hp, h⟩
    · rw [h] at hq; simp at hq
    · obtain ⟨_, _, _, h4⟩ := waitLoop_counts env r 100 0
      have hkind := waitLoop_calls_kind env r 100 0
      rw [h, afterLoop_calls, List.countP_append, h4] at hq
      rw [h, afterLoop_outcome, afterLoop_calls]
      revert hq
      cases (waitLoop env r 100 0).1 <;> simp only
      · simp
      · intro _
        refine ⟨trivial, ?_⟩
        rw [List.mem_append]
        constructor
        · rintro (hm | hm)
          · rcases hkind _ hm with ⟨_, hc⟩ | ⟨_, hc⟩ | hc <;> cases hc
          · by_contra hneg
            rw [if_neg hneg] at hm
            simp at hm
        · intro hneg
          right
          rw [if_pos hneg]
          simp
      · simp
  · intro hb
    rcases submitAudio_cases env r bytesWritten with h | ⟨hn, hp, _⟩
    · rw [h]
    · rw [submitAudio_all_busy env r bytesWritten hn hp hb]
  · intro hf hns
    rcases submitAudio_cases env r bytesWritten with h | ⟨hn, hp, h⟩
    · rw [h]
    · rw [h, afterLoop_outcome]
      have h1 : (waitLoop env r 100 0).1 ≠ LoopExit.stopped := by
        intro hs
        exact hns ((waitLoop_exit_stopped_iff env r).1 hs)
      have h2 : (waitLoop env r 100 0).1 ≠ LoopExit.divisionByZero := by
        intro hz
        have := waitLoop_exit_zero env r hz
        omega
      revert h1 h2
      cases (waitLoop env r 100 0).1 <;> simp

theorem submitAudio_false_iff_stopped_witness :
    (submitAudio (steadyEnv 0 44 (-1)) ⟨1, some 1, 4⟩ 960).outcome = Outcome.returned true ∧
      (submitAudio (stoppingEnv 0 0) ⟨1, some 1, 4⟩ 960).outcome = Outcome.returned false :=
  ⟨(submitAudio_false_iff_stopped (steadyEnv 0 44 (-1)) ⟨1, some 1, 4⟩ 960).2.2.2.2.1
      (by intro j _; simp [Busy, steadyEnv]),
   (submitAudio_false_iff_stopped (stoppingEnv 0 0) ⟨1, some 1, 4⟩ 960).1.2
      ⟨by decide, by decide, 0, by decide, by decide, by intro j hj; omega⟩⟩

/-- C8: for every input and every device behaviour a call of `submitAudio` makes
at most 100 status polls, at most 100 queue-size polls and at most 100 delays,
each of one unit, hence at most 302 calls in all; a device that never drains
below 11 frames and never reports stopped meets the bound: exactly 100 polls of
each kind and 100 delays, after which the call returns true. -/
theorem submitAudio_bounded_wait (env : Env) (r : SdlAudioRenderer) (bytesWritten : Int) :
    List.countP isStatusPoll (submitAudio env r bytesWritten).calls ≤ 100 ∧
      List.countP isQueuePoll (submitAudio env r bytesWritten).calls ≤ 100 ∧
      List.countP isDelay (submitAudio env r bytesWritten).calls ≤ 100 ∧
      (∀ ms, SdlCall.SDL_Delay ms ∈ (submitAudio env r bytesWritten).calls → ms = 1) ∧
      (submitAudio env r bytesWritten).calls.length ≤ 302 ∧
      ((∀ j, j < 100 → Busy env r j) → bytesWritten ≠ 0 →
        (env.pendingAudioDuration : Int) ≤ getAdaptiveAudioQueueLimitMs env.apple env.rttInfo →
        (submitAudio env r bytesWritten).outcome = Outcome.returned true ∧
        List.countP isStatusPoll (submitAudio env r bytesWritten).calls = 100 ∧
        List.countP isQueuePoll (submitAudio env r bytesWritten).calls = 100 ∧
        List.countP isDelay (submitAudio env r bytesWritten).calls = 100) := by
  obtain ⟨h1, h2, h3, _⟩ := submitAudio_counts env r bytesWritten
  refine ⟨h1, h2, h3, fun ms h => submitAudio_delay_unit env r bytesWritten ms h, ?_, ?_⟩
  · rcases submitAudio_cases env r bytesWritten with h | ⟨_, _, h⟩
    · rw [h]; simp
    · have hl := waitLoop_length env r 100 0
      rw [h, afterLoop_calls, List.length_append]
      cases (waitLoop env r 100 0).1 <;> simp only <;> (try split_ifs) <;>
        simp only [List.length_cons, List.length_nil] <;> omega
  · intro hb hn hp
    obtain ⟨c1, c2, c3, _⟩ := countP_busyIterations env r 100 0
    rw [submitAudio_all_busy env r bytesWritten hn hp hb]
    refine ⟨rfl, ?_, ?_, ?_⟩ <;> simp only [List.countP_append, c1, c2, c3] <;> split_ifs <;>
      simp [List.countP_cons, isStatusPoll, isQueuePoll, isDelay]

theorem submitAudio_bounded_wait_witness :
    List.countP isDelay (submitAudio (steadyEnv 0 44 0) ⟨1, some 1, 4⟩ 960).calls = 100 :=
  ((submitAudio_bounded_wait (steadyEnv 0 44 0) ⟨1, some 1, 4⟩ 960).2.2.2.2.2
    (by intro j _; simp [Busy, steadyEnv]) (by decide) (by decide)).2.2.2

/-! ## The destructor -/

/-- C9, as stated, fails: on a prepared renderer (device handle 1, buffer
allocated) the destructor body leaves both fields as they were, so a second run
pauses, closes and frees again: two closes and two frees over the two runs. -/
theorem destructor_twice_releases_twice :
    (destructor ⟨1, some 1, 4⟩).1 = ⟨1, some 1, 4⟩ ∧
      (destructor (destructor ⟨1, some 1, 4⟩).1).2 =
        [SdlCall.SDL_PauseAudioDevice 1 1, SdlCall.SDL_CloseAudioDevice 1, SdlCall.SDL_free 1,
         SdlCall.SDL_QuitSubSystem] ∧
      List.countP isRelease (destructor (destructor ⟨1, some 1, 4⟩).1).2 = 3 ∧
      List.countP isClose
        ((destructor ⟨1, some 1, 4⟩).2 ++ (destructor (destructor ⟨1, some 1, 4⟩).1).2) = 2 ∧
      List.countP isFree
        ((destructor ⟨1, some 1, 4⟩).2 ++ (destructor (destructor ⟨1, some 1, 4⟩).1).2) = 2 := by
  decide

/-- C9, amended: one run of the destructor closes the device at most once
(exactly when the handle is non-zero) and frees the buffer at most once (exactly
when it is non-null) and assigns no field; on a renderer that never prepared
(handle 0, buffer null) neither the first nor a second run pauses, closes or
frees anything. -/
theorem destructor_releases_at_most_once (r : SdlAudioRenderer) :
    (destructor r).1 = r ∧
      List.countP isClose (destructor r).2 = (if r.m_AudioDevice ≠ 0 then 1 else 0) ∧
      List.countP isFree (destructor r).2 = (if r.m_AudioBuffer ≠ none then 1 else 0) ∧
      (r.m_AudioDevice = 0 → r.m_AudioBuffer = none →
        List.countP isRelease (destructor r).2 = 0 ∧
        List.countP isRelease (destructor (destructor r).1).2 = 0) := by
  obtain ⟨dev, buf, fs⟩ := r
  refine ⟨rfl, ?_, ?_, ?_⟩
  · cases buf <;> by_cases hd : dev = 0 <;>
      simp [destructor, hd, List.countP_cons, isClose]
  · cases buf <;> by_cases hd : dev = 0 <;>
      simp [destructor, hd, List.countP_cons, isFree]
  · intro hd hb
    simp only at hd hb
    subst hd hb
    exact ⟨rfl, rfl⟩

theorem destructor_releases_at_most_once_witness :
    List.countP isRelease (destructor ⟨0, none, 0⟩).2 = 0 ∧
      List.countP isRelease (destructor (destructor ⟨0, none, 0⟩).1).2 = 0 :=
  (destructor_releases_at_most_once ⟨0, none, 0⟩).2.2.2 rfl rfl

/-! ## The queue depth at the enqueue -/

set_option maxRecDepth 100000 in
/-- C10, as stated, fails: a device that stays at 11 queued frames (44 bytes of
4-byte frames) for all 100 iterations is still handed the audio: `SDL_QueueAudio`
is called once although the last queue-size poll observed 44 / 4 = 11 > 10. -/
theorem submitAudio_enqueues_after_exhausted_wait :
    List.countP isQueueAudio
        (submitAudio (steadyEnv 0 44 0) ⟨1, some 1, 4⟩ 960).calls = 1 ∧
      lastQueuedAudioSize (submitAudio (steadyEnv 0 44 0) ⟨1, some 1, 4⟩ 960).calls = some 44 ∧
      ¬ (44 / (4 : Nat) ≤ 10) ∧
      List.countP isQueuePoll (submitAudio (steadyEnv 0 44 0) ⟨1, some 1, 4⟩ 960).calls = 100 := by
  decide

/-- C10, amended: whenever `SDL_QueueAudio` is called, either the last
queue-size poll before it observed at most 10 whole frames
(`queuedBytes / frameSize <= 10`, that is `queuedBytes < 11 * frameSize`), or the
wait budget was used up: all 100 iterations saw a non-stopped device holding
more than 10 frames, with 100 queue-size polls and 100 delays made. -/
theorem submitAudio_enqueue_depth (env : Env) (r : SdlAudioRenderer) (bytesWritten : Int)
    (hcall : List.countP isQueueAudio (submitAudio env r bytesWritten).calls ≠ 0) :
    (∃ q, lastQueuedAudioSize (submitAudio env r bytesWritten).calls = some q ∧
        q / r.m_FrameSize ≤ 10 ∧ q < 11 * r.m_FrameSize) ∨
      ((∀ j, j < 100 → Busy env r j) ∧
        List.countP isQueuePoll (submitAudio env r bytesWritten).calls = 100 ∧
        List.countP isDelay (submitAudio env r bytesWritten).calls = 100) := by
  rcases submitAudio_cases env r bytesWritten with h | ⟨hn, hp, h⟩
  · rw [h] at hcall; simp at hcall
  · obtain ⟨_, _, _, h4⟩ := waitLoop_counts env r 100 0
    rw [h, afterLoop_calls, List.countP_append, h4] at hcall
    rcases waitLoop_cases env r 100 0 with ⟨hb, _⟩ | ⟨k, _, _, hc⟩
    · right
      have hb0 : ∀ j, j < 100 → Busy env r j := by
        intro j hj; simpa using hb j hj
      obtain ⟨_, c2, c3, _⟩ := countP_busyIterations env r 100 0
      rw [submitAudio_all_busy env r bytesWritten hn hp hb0]
      refine ⟨hb0, ?_, ?_⟩ <;> simp only [List.countP_append, c2, c3] <;> split_ifs <;>
        simp [List.countP_cons, isQueuePoll, isDelay]
    · rcases hc with ⟨_, e⟩ | ⟨_, _, e⟩ | ⟨_, hf, hq, e⟩
      · rw [e] at hcall; simp at hcall
      · rw [e] at hcall; simp at hcall
      · left
        refine ⟨env.queuedAudioSize (0 + k), ?_, hq, ?_⟩
        · rw [h, afterLoop_calls, e]
          simp only
          rw [lastQueuedAudioSize_append, lastQueuedAudioSize_append]
          split_ifs <;> rfl
        · have hpos : 0 < r.m_FrameSize := Nat.pos_of_ne_zero hf
          have := (Nat.div_lt_iff_lt_mul hpos).1 (Nat.lt_succ_of_le hq)
          omega

theorem submitAudio_enqueue_depth_witness :
    (∃ q, lastQueuedAudioSize (submitAudio (drainingEnv 3 44 0) ⟨1, some 1, 4⟩ 960).calls = some q ∧
        q / 4 ≤ 10 ∧ q < 11 * 4) ∨
      ((∀ j, j < 100 → Busy (drainingEnv 3 44 0) ⟨1, some 1, 4⟩ j) ∧
        List.countP isQueuePoll (submitAudio (drainingEnv 3 44 0) ⟨1, some 1, 4⟩ 960).calls = 100 ∧
        List.countP isDelay (submitAudio (drainingEnv 3 44 0) ⟨1, some 1, 4⟩ 960).calls = 100) :=
  submitAudio_enqueue_depth (drainingEnv 3 44 0) ⟨1, some 1, 4⟩ 960 (by decide)

end SdlAud
